import Mathlib

/-!
Verification development for the spreadsheet formula-evaluation and
recalculation engine of the cloud-spreadsheet repository (`Spreadsheet.tsx`).

The engine's functions (`evaluateFormula`, `parseValues`, `evaluateValue`,
`evaluateCondition`, `parseRange`, `handleCellBlur`, `addToHistory`,
`undo`, `redo`) are given a shallow embedding here.  JavaScript strings are
Lean `String`s (operated on through their character lists, so that every
definition reduces inside the kernel); JavaScript numbers are modelled by
`JNum`, an unnormalised fraction of an `Int` numerator over a `Nat`
denominator.  All arithmetic performed by the engine on the inputs settled
below stays inside the rationals with small exact denominators, so this model
coincides with IEEE-754 double behaviour on every input appearing in a
theorem of this file; IEEE specials (`Infinity`, `NaN` survival) and binary
rounding of non-representable decimals are outside the model and are never
exercised.  `NaN` as produced by `parseFloat`/`parseInt` is modelled by
`Option` (`none`), which is faithful because the engine immediately collapses
it with `|| 0` at every use site appearing in the code.
-/

/-- Cell record of the sheet: `{ value: string; formula?: string }`
(`CellData` in `Spreadsheet.tsx`). -/
structure CellData where
  value : String
  formula : Option String
deriving DecidableEq, Repr

/-- A JavaScript object `Record<string, CellData>` modelled as an
insertion-ordered association list; key order is JS property order. -/
abbrev Sheet := List (String × CellData)

/-! ### String helpers (models of the JS built-ins used by the engine) -/

/-- Whitespace recognised by JS `trim`, `\s` and number parsing (the ASCII
part plus NBSP and BOM; other rare Unicode space characters never occur in
the code or in the inputs settled here). -/
def isWsChar (c : Char) : Bool :=
  c = ' ' ∨ c = '\t' ∨ c = '\n' ∨ c = '\r' ∨ c.toNat = 11 ∨ c.toNat = 12 ∨
    c.toNat = 160 ∨ c.toNat = 65279

/-- Line terminators, which JS regex `.` does not match. -/
def noLineTerm (c : Char) : Bool :=
  c ≠ '\n' ∧ c ≠ '\r' ∧ c.toNat ≠ 8232 ∧ c.toNat ≠ 8233

/-- List-level prefix test (model of `String.prototype.startsWith`). -/
def listStartsWith : List Char → List Char → Bool
  | _, [] => true
  | [], _ :: _ => false
  | c :: cs, p :: ps => c = p ∧ listStartsWith cs ps

/-- Model of `s.startsWith(p)`. -/
def strStartsWith (s p : String) : Bool := listStartsWith s.data p.data

/-- Model of `s.endsWith(p)`. -/
def strEndsWith (s p : String) : Bool :=
  listStartsWith s.data.reverse p.data.reverse

/-- Model of `s.slice(n)` for a nonnegative `n` (drops `n` leading
characters). -/
def strDrop (s : String) (n : Nat) : String := ⟨s.data.drop n⟩

/-- Drops the last `n` characters of a string. -/
def strDropRight (s : String) (n : Nat) : String := ⟨s.data.take (s.data.length - n)⟩

/-- Model of `String.prototype.toUpperCase` on the ASCII range (the engine
only ever produces ASCII formula text; `Char.toUpper` is the ASCII map). -/
def jsToUpper (s : String) : String := ⟨s.data.map Char.toUpper⟩

/-- Model of `String.prototype.trim`. -/
def jsTrim (s : String) : String :=
  ⟨((s.data.dropWhile isWsChar).reverse.dropWhile isWsChar).reverse⟩

/-- Model of `s.includes(c)` for a single character. -/
def strContainsChar (s : String) (c : Char) : Bool := s.data.any (· = c)

/-- Splits a character list at every occurrence of `c`
(model of `String.prototype.split` with a single-character separator). -/
def splitOnChar (c : Char) : List Char → List (List Char)
  | [] => [[]]
  | x :: xs =>
    match splitOnChar c xs with
    | [] => [[x]]
    | h :: t => if x = c then [] :: h :: t else (x :: h) :: t

/-- Removes every single and double quote character
(model of `val.replace(/['"]/g, '')`). -/
def stripQuotes (s : String) : String :=
  ⟨s.data.filter (fun c => c ≠ Char.ofNat 39 ∧ c ≠ Char.ofNat 34)⟩

/-! ### Numbers: model of the JS doubles used by the engine -/

/-- JS number modelled as the exact fraction `num / den`.  The engine only
produces values parsed from decimal literals and combined by `+`, `min`,
`max`, comparison and one division (AVERAGE), so every value is an exact
rational; `den` is positive for every value the engine constructs. -/
structure JNum where
  num : Int
  den : Nat
deriving DecidableEq, Repr

/-- The JS number of an integer. -/
def jnOfInt (n : Int) : JNum := ⟨n, 1⟩

/-- Exact JS `+` on the modelled rationals. -/
def jnAdd (a b : JNum) : JNum := ⟨a.num * b.den + b.num * a.den, a.den * b.den⟩

/-- Division by a positive integer (used by AVERAGE's `sum / values.length`,
which the code guards with `values.length > 0`). -/
def jnDivNat (a : JNum) (n : Nat) : JNum := ⟨a.num, a.den * n⟩

/-- Exact JS `<` on the modelled rationals (denominators are positive for
every engine-constructed value, so cross multiplication is order-correct). -/
def jnLt (a b : JNum) : Bool := a.num * b.den < b.num * a.den

/-- Exact JS `<=`. -/
def jnLe (a b : JNum) : Bool := a.num * b.den ≤ b.num * a.den

/-- JS `===` on numbers (value equality of the fractions). -/
def jnEq (a b : JNum) : Bool := a.num * b.den = b.num * a.den

/-- JS `Math.min` of two numbers (no `NaN` can reach it, see `parseValues`). -/
def jnMin (a b : JNum) : JNum := if jnLe a b then a else b

/-- JS `Math.max` of two numbers. -/
def jnMax (a b : JNum) : JNum := if jnLe a b then b else a

/-- Value of a digit list, most significant first. -/
def digitsToNat (l : List Char) : Nat :=
  l.foldl (fun a c => a * 10 + (c.toNat - 48)) 0

/-- Fractional decimal digits of `rem / den` (long division), producing up to
`fuel` digits.  Terminates exactly (remainder `0`) whenever the denominator
divides a power of ten, which covers every value printed by the engine on the
inputs settled here; the fuel cut-off approximates JS shortest-round-trip
printing for the remaining, never-exercised values. -/
def fracDigits : Nat → Nat → Nat → List Char
  | 0, _, _ => []
  | _ + 1, 0, _ => []
  | fuel + 1, rem, den =>
    Char.ofNat (48 + rem * 10 / den) :: fracDigits fuel (rem * 10 % den) den

/-- Model of `Number.prototype.toString` on the modelled rationals: an
integer prints with no decimal point (matching JS for every integer the
engine produces here), otherwise sign, integer part, and the decimal
expansion. -/
def jnToString (q : JNum) : String :=
  if q.num % (q.den : Int) = 0 then toString (q.num / (q.den : Int))
  else
    let a := q.num.natAbs
    let sign : String := if q.num < 0 then "-" else ""
    sign ++ toString (a / q.den) ++ "." ++ ⟨fracDigits 16 (a % q.den) q.den⟩

/-- Model of `parseFloat(s) || 0`: JS `NaN` (here `none`) is falsy and is
replaced by `0`; every other parsed value is returned unchanged (a parsed
`0` is also falsy, but `|| 0` maps it to the same value `0`). -/
def jsOr0 (o : Option JNum) : JNum := o.getD ⟨0, 1⟩

/-- Model of the JS built-in `parseFloat`: skip leading whitespace, optional
sign, longest prefix of the shape `digits [. digits] [e|E [sign] digits]`
with at least one mantissa digit; `none` models `NaN`.  (The special literal
`Infinity` is outside the rational model and never occurs in the inputs
settled here.) -/
def parseFloat (s : String) : Option JNum :=
  let l := s.data.dropWhile isWsChar
  let signAnd : Int × List Char :=
    match l with
    | c :: rest => if c = '-' then (-1, rest) else if c = '+' then (1, rest) else (1, l)
    | [] => (1, [])
  let sign := signAnd.1
  let l1 := signAnd.2
  let ds := l1.takeWhile Char.isDigit
  let l2 := l1.drop ds.length
  let fracAnd : List Char × List Char :=
    match l2 with
    | c :: rest =>
      if c = '.' then (rest.takeWhile Char.isDigit, rest.drop (rest.takeWhile Char.isDigit).length)
      else ([], l2)
    | [] => ([], [])
  let fs := fracAnd.1
  let l3 := fracAnd.2
  if ds.length + fs.length = 0 then none
  else
    let mantissa : JNum := ⟨sign * (digitsToNat ds * 10 ^ fs.length + digitsToNat fs), 10 ^ fs.length⟩
    let expOpt : Option Int :=
      match l3 with
      | c :: rest =>
        if c = 'e' ∨ c = 'E' then
          let esAnd : Int × List Char :=
            match rest with
            | c2 :: r2 => if c2 = '-' then (-1, r2) else if c2 = '+' then (1, r2) else (1, rest)
            | [] => (1, [])
          let eds := esAnd.2.takeWhile Char.isDigit
          if eds.isEmpty then none else some (esAnd.1 * (digitsToNat eds : Int))
        else none
      | [] => none
    some <|
      match expOpt with
      | some e =>
        if 0 ≤ e then ⟨mantissa.num * 10 ^ e.toNat, mantissa.den⟩
        else ⟨mantissa.num, mantissa.den * 10 ^ (-e).toNat⟩
      | none => mantissa

/-- Hexadecimal digit test for `parseInt`'s `0x` notation. -/
def isHexDigit (c : Char) : Bool :=
  c.isDigit ∨ ('a' ≤ c ∧ c ≤ 'f') ∨ ('A' ≤ c ∧ c ≤ 'F')

/-- Value of a hexadecimal digit. -/
def hexVal (c : Char) : Nat :=
  if c.isDigit then c.toNat - 48
  else if 'a' ≤ c ∧ c ≤ 'f' then c.toNat - 87
  else c.toNat - 55

/-- Model of the JS built-in `parseInt` with no radix argument: skip leading
whitespace, optional sign, then either `0x`/`0X` hex digits or decimal
digits; `none` models `NaN`. -/
def jsParseInt (s : String) : Option Int :=
  let l := s.data.dropWhile isWsChar
  let signAnd : Int × List Char :=
    match l with
    | c :: rest => if c = '-' then (-1, rest) else if c = '+' then (1, rest) else (1, l)
    | [] => (1, [])
  let sign := signAnd.1
  match signAnd.2 with
  | '0' :: c :: rest =>
    if c = 'x' ∨ c = 'X' then
      let hs := rest.takeWhile isHexDigit
      if hs.isEmpty then none
      else some (sign * (hs.foldl (fun a d => a * 16 + hexVal d) 0 : Nat))
    else some (sign * (digitsToNat (('0' :: c :: rest).takeWhile Char.isDigit) : Nat))
  | l1 =>
    let ds := l1.takeWhile Char.isDigit
    if ds.isEmpty then none else some (sign * (digitsToNat ds : Nat))

/-! ### Sheet access -/

/-- Lookup of a key in the cell map (model of `data[key]`; `none` is JS
`undefined`). -/
def lookupSheet (data : Sheet) (k : String) : Option CellData :=
  (data.find? (fun p => p.1 = k)).map (fun p => p.2)

/-- The cell's keys in property order. -/
def keysOf (data : Sheet) : List String := data.map (fun p => p.1)

/-- Model of `data[key]?.value || '0'` (and of
`data[key]?.value.toString() || '0'` in `parseRange`, `toString` being the
identity on strings): an absent cell or an empty string yields `'0'`. -/
def getCellStr (data : Sheet) (k : String) : String :=
  match lookupSheet data k with
  | some c => if c.value = "" then "0" else c.value
  | none => "0"

/-- Model of `newData[key] = cell` on a JS object: an existing key keeps its
position, a new key is appended (JS property-order semantics). -/
def setCell (data : Sheet) (k : String) (c : CellData) : Sheet :=
  if data.any (fun p => p.1 = k) then
    data.map (fun p => if p.1 = k then (k, c) else p)
  else data ++ [(k, c)]

/-- Model of `newData[key].value = v`: rewrites the value of the cell at `k`
in place, keeping its formula and its position. -/
def updateValue (data : Sheet) (k : String) (v : String) : Sheet :=
  data.map (fun p => if p.1 = k then (p.1, ⟨v, p.2.formula⟩) else p)

/-! ### Regex matchers of `evaluateFormula`

`evaluateFormula` dispatches on `upperFormula.match(...)` against the six
anchored patterns.  Each pattern requires a distinct literal prefix
(`SUM(`, `AVERAGE(`, `COUNT(`, `MIN(`, `MAX(`, `IF(`), so at most one can
match a given string and the sequential dispatch picks it. -/

/-- Model of `upperFormula.match(/^NAME\((.+)\)$/)` for a function name:
matches exactly when the string is `NAME(` ++ `inner` ++ `)` with `inner`
nonempty and free of line terminators (JS `.` matches anything else; the
greedy `.+` with both anchors captures everything between the literal prefix
and the final parenthesis). -/
def funcArgMatch (name : String) (u : String) : Option String :=
  if strStartsWith u (name ++ "(") ∧ strEndsWith u ")" ∧
      name.data.length + 3 ≤ u.data.length ∧
      (strDropRight (strDrop u (name.data.length + 1)) 1).data.all noLineTerm then
    some (strDropRight (strDrop u (name.data.length + 1)) 1)
  else none

/-- The SUM pattern `/^SUM\((.+)\)$/`. -/
def sumMatch (u : String) : Option String := funcArgMatch "SUM" u

/-- The AVERAGE pattern `/^AVERAGE\((.+)\)$/`. -/
def avgMatch (u : String) : Option String := funcArgMatch "AVERAGE" u

/-- The COUNT pattern `/^COUNT\((.+)\)$/`. -/
def countMatch (u : String) : Option String := funcArgMatch "COUNT" u

/-- The MIN pattern `/^MIN\((.+)\)$/`. -/
def minMatch (u : String) : Option String := funcArgMatch "MIN" u

/-- The MAX pattern `/^MAX\((.+)\)$/`. -/
def maxMatch (u : String) : Option String := funcArgMatch "MAX" u

/-- Splits a list at the first occurrence of `c`, returning the (possibly
empty) parts before and after it. -/
def splitOnFirst (c : Char) : List Char → Option (List Char × List Char)
  | [] => none
  | x :: xs =>
    if x = c then some ([], xs)
    else (splitOnFirst c xs).map (fun pr => (x :: pr.1, pr.2))

/-- Model of `upperFormula.match(/^IF\(([^,]+),([^,]+),([^)]+)\)$/)`.
The backtracking-free reading is exact: the two `[^,]+` groups cannot cross
a comma, so they end at the first and second commas of the interior, and the
final group must be nonempty and free of `)` since `\)$` pins the last
character.  All three groups must be nonempty. -/
def ifMatch (u : String) : Option (String × String × String) :=
  if strStartsWith u "IF(" ∧ strEndsWith u ")" then
    let interior := (strDropRight (strDrop u 3) 1).data
    match splitOnFirst ',' interior with
    | some (g1, rest) =>
      match splitOnFirst ',' rest with
      | some (g2, g3) =>
        if g1.isEmpty ∨ g2.isEmpty ∨ g3.isEmpty ∨ g3.any (· = ')') then none
        else some (⟨g1⟩, ⟨g2⟩, ⟨g3⟩)
      | none => none
    | none => none
  else none

/-- Model of `val.match(/^([A-Z]+)(\d+)$/)`: one or more uppercase ASCII
letters followed by one or more ASCII digits, spanning the whole string. -/
def cellRefMatch (val : String) : Bool :=
  let cs := val.data
  let letters := cs.takeWhile (fun c => 'A' ≤ c ∧ c ≤ 'Z')
  let rest := cs.drop letters.length
  (¬ letters.isEmpty) ∧ (¬ rest.isEmpty) ∧ rest.all Char.isDigit

/-! ### The engine (`Spreadsheet.tsx` lines 154-271) -/

/-- Model of `evaluateValue (val, data)`: a whole-string cell reference reads
the cell (empty/absent coercing to `'0'`); anything else has its quote
characters removed. -/
def evaluateValue (val : String) (data : Sheet) : String :=
  if cellRefMatch val then getCellStr data (jsToUpper val)
  else stripQuotes val

/-- One scanning step bound: the splitter consumes at least one character
per emitted separator, so `length + 1` steps always suffice. -/
def jsSplitCondGo : Nat → List Char → List Char → List String → List String
  | 0, l, cur, acc => (⟨(cur ++ l.reverse).reverse⟩ :: acc).reverse
  | fuel + 1, l, cur, acc =>
    match l with
    | [] => ((⟨cur.reverse⟩ : String) :: acc).reverse
    | c :: rest =>
      if ((c :: rest).dropWhile isWsChar).headD 'a' ∈ ['<', '>', '=', '!'] then
        let afterWs := (c :: rest).dropWhile isWsChar
        let ops := afterWs.takeWhile (· ∈ ['<', '>', '=', '!'])
        let rest2 := (afterWs.drop ops.length).dropWhile isWsChar
        jsSplitCondGo fuel rest2 [] ((⟨ops⟩ : String) :: (⟨cur.reverse⟩ : String) :: acc)
      else jsSplitCondGo fuel rest (c :: cur) acc

/-- Model of `condition.split(/\s*([<>=!]+)\s*/)`: JS `split` with a
capturing group emits the parts between separators interleaved with the
captured operator runs; a separator is a maximal run of whitespace, one or
more operator characters, and trailing whitespace, found scanning left to
right. -/
def jsSplitCond (s : String) : List String :=
  jsSplitCondGo (s.data.length + 1) s.data [] []

/-- Model of `evaluateCondition (condition, data)`: exactly three split
parts, both operands coerced by `parseFloat(evaluateValue(...)) || 0`, then
the operator switch; anything else is `false`. -/
def evaluateCondition (condition : String) (data : Sheet) : Bool :=
  match jsSplitCond condition with
  | [lhs, op, rhs] =>
    let left := jsOr0 (parseFloat (evaluateValue lhs data))
    let right := jsOr0 (parseFloat (evaluateValue rhs data))
    if op = ">" then jnLt right left
    else if op = "<" then jnLt left right
    else if op = ">=" then jnLe right left
    else if op = "<=" then jnLe left right
    else if op = "==" ∨ op = "=" then jnEq left right
    else if op = "!=" ∨ op = "<>" then ¬ jnEq left right
    else false
  | _ => false

/-- An inclusive integer range `[a..b]`, empty when `b < a` (the engine's
`for (let i = a; i <= b; i++)` loops; a `NaN` bound never reaches here, see
`parseRange`). -/
def intRangeIncl (a b : Int) : List Int :=
  (List.range (b - a + 1).toNat).map (fun i => a + (i : Int))

/-- Model of `String.fromCharCode(65 + c)`: code units are taken modulo
2^16; an invalid code point cannot arise from the single-letter columns the
engine produces on the inputs settled here. -/
def jsFromCharCode (n : Int) : Char := Char.ofNat (n % 65536).toNat

/-- Model of `parseRange (range, data)`: split on `:`, take the first
character's code of each endpoint as the column and `parseInt` of the rest
minus one as the row, and walk the rectangle row-major with inclusive
`<=`-bounded loops.  A missing or empty endpoint, an unparsable row
(`parseInt` `NaN`), or a second endpoint above or left of the first yields
an empty list, because a `NaN` or descending loop bound fails the `<=` test
immediately. -/
def parseRange (range : String) (data : Sheet) : List String :=
  let parts := splitOnChar ':' range.data
  let start : List Char := parts.headD []
  let stop : List Char := (parts.drop 1).headD []
  match start.head?, stop.head? with
  | some sc, some ec =>
    match jsParseInt ⟨start.drop 1⟩, jsParseInt ⟨stop.drop 1⟩ with
    | some sr, some er =>
      let startCol : Int := (sc.toNat : Int) - 65
      let endCol : Int := (ec.toNat : Int) - 65
      let startRow : Int := sr - 1
      let endRow : Int := er - 1
      (intRangeIncl startRow endRow).flatMap (fun r =>
        (intRangeIncl startCol endCol).map (fun c =>
          getCellStr data (⟨[jsFromCharCode (65 + c)]⟩ ++ toString (r + 1))))
    | _, _ => []
  | _, _ => []

/-- Model of `parseValues (arg, data)`: a trimmed argument containing `:` is
a range whose cell strings are each coerced by `parseFloat(val) || 0`;
anything else is a single `evaluateValue` coerced the same way.  Note the
`|| 0` replaces every `NaN` by `0`, so the produced list never contains a
`NaN` — which is what makes the `!isNaN` filters downstream in
`evaluateFormula` identically true. -/
def parseValues (arg : String) (data : Sheet) : List JNum :=
  let trimmed := jsTrim arg
  if strContainsChar trimmed ':' then
    (parseRange trimmed data).map (fun v => jsOr0 (parseFloat v))
  else [jsOr0 (parseFloat (evaluateValue trimmed data))]

/-- Model of `values.reduce((sum, val) => sum + val, 0)`. -/
def listSum (l : List JNum) : JNum := l.foldl jnAdd ⟨0, 1⟩

/-- Model of `Math.min(...numbers)` on a nonempty list (the engine guards
with `numbers.length > 0`; the empty case never reaches this fold). -/
def jsMinList : List JNum → JNum
  | [] => ⟨0, 1⟩
  | x :: xs => xs.foldl jnMin x

/-- Model of `Math.max(...numbers)` on a nonempty list. -/
def jsMaxList : List JNum → JNum
  | [] => ⟨0, 1⟩
  | x :: xs => xs.foldl jnMax x

/-- Model of `evaluateFormula (formula, data)` (lines 154-210): uppercase the
formula text, dispatch on the six anchored regexes in order, default `'0'`.
In the COUNT/MIN/MAX branches the source filters with `!isNaN(val)`, but
`parseValues` has already replaced every `NaN` by `0` (its `|| 0`), so the
filter keeps every element; it is modelled by the identity it is. -/
def evaluateFormula (formula : String) (data : Sheet) : String :=
  match sumMatch (jsToUpper formula) with
  | some arg => jnToString (listSum (parseValues arg data))
  | none =>
  match avgMatch (jsToUpper formula) with
  | some arg =>
    let values := parseValues arg data
    if 0 < values.length then jnToString (jnDivNat (listSum values) values.length)
    else "0"
  | none =>
  match countMatch (jsToUpper formula) with
  | some arg => toString (parseValues arg data).length
  | none =>
  match minMatch (jsToUpper formula) with
  | some arg =>
    let values := parseValues arg data
    if 0 < values.length then jnToString (jsMinList values) else "0"
  | none =>
  match maxMatch (jsToUpper formula) with
  | some arg =>
    let values := parseValues arg data
    if 0 < values.length then jnToString (jsMaxList values) else "0"
  | none =>
  match ifMatch (jsToUpper formula) with
  | some (cond, tv, fv) =>
    if evaluateCondition (jsTrim cond) data then evaluateValue (jsTrim tv) data
    else evaluateValue (jsTrim fv) data
  | none => "0"

/-! ### The recalculation pass and the committed edit (`handleCellBlur`)

`handleCellBlur` (lines 739-759) builds `newData` from the current `data`,
writes the edited cell (formula text kept verbatim, including its leading
`=`; its value computed over the pre-edit map), then walks
`Object.keys(newData)` in property order and re-evaluates every cell whose
`formula` property is truthy, writing each result into the map that later
iterations read.  There is no dependency analysis, no ordering beyond key
order, no cycle check, and no error channel: `CellData` has no error field
at all. -/

/-- One step of the re-evaluation loop: `if (newData[key].formula)
newData[key].value = evaluateFormula(newData[key].formula.slice(1), newData)`.
A missing cell or an absent/empty (falsy) formula leaves the map unchanged. -/
def reevalKey (data : Sheet) (k : String) : Sheet :=
  match lookupSheet data k with
  | some c =>
    match c.formula with
    | some f => if f = "" then data else updateValue data k (evaluateFormula (strDrop f 1) data)
    | none => data
  | none => data

/-- The full re-evaluation loop over the snapshot of keys, in property
order, each step reading the updates of the previous ones. -/
def recalcAll (data : Sheet) : Sheet := (keysOf data).foldl reevalKey data

/-- The pure cell-map transformation of `handleCellBlur`: write the edited
cell (a formula input stores `{value: evaluateFormula(text, pre-edit map),
formula: editValue}`, anything else stores `{value: editValue}` with no
formula), then run the re-evaluation loop. -/
def handleCellBlurData (data : Sheet) (selectedCell editValue : String) : Sheet :=
  let newData :=
    if strStartsWith editValue "=" then
      setCell data selectedCell ⟨evaluateFormula (strDrop editValue 1) data, some editValue⟩
    else
      setCell data selectedCell ⟨editValue, none⟩
  recalcAll newData

/-! ### The application state with object identity (history/undo/redo)

`data`, `history` and `historyIndex` are React state.  JS spreads
(`{...data}`, `{...newData}`) copy the map but share the `CellData`
objects, and the re-evaluation loop assigns `newData[key].value` through
those shared references; to capture this observable aliasing the state is
modelled with an explicit object heap: a cell map is a list of
(key, object id) pairs and the objects live in `heap`.  Fresh object
literals (`{ value: ..., formula: ... }`) allocate new ids; in-place
`.value` writes mutate the heap and are therefore seen through every map —
current or historical — that holds the same id.  Sequential edits with a
React render between them are assumed (each handler reads the state its
predecessor set). -/

/-- The object heap: object ids to cell records. -/
abbrev Heap := List (Nat × CellData)

/-- A cell map holding references: keys to object ids, in property order. -/
abbrev RefMap := List (String × Nat)

/-- Dereferences an object id. -/
def lookupHeap (h : Heap) (i : Nat) : Option CellData :=
  (h.find? (fun p => p.1 = i)).map (fun p => p.2)

/-- In-place `obj.value = v` on the object `i`. -/
def heapSetValue (h : Heap) (i : Nat) (v : String) : Heap :=
  h.map (fun p => if p.1 = i then (p.1, ⟨v, p.2.formula⟩) else p)

/-- Model of `newData[key] = id` on the reference map: existing key keeps
its position, new key is appended. -/
def setRef (m : RefMap) (k : String) (i : Nat) : RefMap :=
  if m.any (fun p => p.1 = k) then m.map (fun p => if p.1 = k then (k, i) else p)
  else m ++ [(k, i)]

/-- The value-level sheet a reference map denotes under a heap (what every
read of `data[key]` observes); a dangling id never arises. -/
def viewSheet (h : Heap) (m : RefMap) : Sheet :=
  m.map (fun p => (p.1, (lookupHeap h p.2).getD ⟨"", none⟩))

/-- The React component state relevant to editing and history:
`data`, `history`, `historyIndex` (initially `{}`, `[]`, `-1`), plus the
object heap and an allocator for fresh object ids. -/
structure AppState where
  heap : Heap
  nextId : Nat
  data : RefMap
  history : List RefMap
  historyIndex : Int

/-- The initial component state. -/
def initialState : AppState := ⟨[], 0, [], [], -1⟩

/-- Model of the full `handleCellBlur` handler: build `newData` sharing the
current cell objects, allocate a fresh object for the edited cell, run the
re-evaluation loop writing `.value` through the shared references, then
`setData` and `addToHistory` (which truncates after the cursor, pushes a
shallow copy of `newData` — same object ids — and moves the cursor to the
end).  `saveData`/`saveVersion` are external persistence collaborators. -/
def handleCellBlur (s : AppState) (selectedCell editValue : String) : AppState :=
  let newCell : CellData :=
    if strStartsWith editValue "=" then
      ⟨evaluateFormula (strDrop editValue 1) (viewSheet s.heap s.data), some editValue⟩
    else ⟨editValue, none⟩
  let h1 := s.heap ++ [(s.nextId, newCell)]
  let m1 := setRef s.data selectedCell s.nextId
  let h2 := m1.foldl (fun h p =>
    match lookupHeap h p.2 with
    | some c =>
      match c.formula with
      | some f =>
        if f = "" then h
        else heapSetValue h p.2 (evaluateFormula (strDrop f 1) (viewSheet h m1))
      | none => h
    | none => h) h1
  let newHistory := s.history.take (s.historyIndex + 1).toNat ++ [m1]
  { heap := h2, nextId := s.nextId + 1, data := m1, history := newHistory,
    historyIndex := (newHistory.length : Int) - 1 }

/-- Model of `undo` (lines 325-332): if the cursor is above `0`, move it
back one and set `data` to the stored snapshot; otherwise silently do
nothing. -/
def undo (s : AppState) : AppState :=
  if 0 < s.historyIndex then
    { s with data := s.history.getD (s.historyIndex - 1).toNat [],
             historyIndex := s.historyIndex - 1 }
  else s

/-- Model of `redo` (lines 334-341): if the cursor is below the last entry,
move it forward one and set `data` to the stored snapshot; otherwise
silently do nothing. -/
def redo (s : AppState) : AppState :=
  if s.historyIndex < (s.history.length : Int) - 1 then
    { s with data := s.history.getD (s.historyIndex + 1).toNat [],
             historyIndex := s.historyIndex + 1 }
  else s

/-- The displayed value of a cell in the current state (what the grid
renders and what the next edit reads). -/
def viewValue (s : AppState) (k : String) : Option String :=
  (lookupSheet (viewSheet s.heap s.data) k).map (fun c => c.value)

/-! ### Concrete sheet fixtures used by the theorems below -/

/-- Sheet with A1=1, A2=x, A3=3 (the spec's range example data). -/
def rangeSheet : Sheet := [("A1", ⟨"1", none⟩), ("A2", ⟨"x", none⟩), ("A3", ⟨"3", none⟩)]

/-- Sheet with A1=5 and a non-numeric B1. -/
def minSheet : Sheet := [("A1", ⟨"5", none⟩), ("B1", ⟨"x", none⟩)]

/-- Sheet with A1=10. -/
def ifSheetBig : Sheet := [("A1", ⟨"10", none⟩)]

/-- Sheet with A1=3. -/
def ifSheetSmall : Sheet := [("A1", ⟨"3", none⟩)]

/-- A two-link dependency chain whose key order is opposite to dependency
order: A1 reads B1, B1 reads C1, and the keys are ordered A1, B1, C1.
All three cells are consistent (value 1) before the edit. -/
def chainSheet : Sheet :=
  [("A1", ⟨"1", some "=SUM(B1:B1)"⟩), ("B1", ⟨"1", some "=SUM(C1:C1)"⟩), ("C1", ⟨"1", none⟩)]

/-- Pre-edit sheet for the cycle scenario: B1 already holds the formula
`=SUM(A1:A1)`; editing A1 to `=SUM(B1:B1)` closes the cycle. -/
def cycleSheet : Sheet := [("A1", ⟨"7", none⟩), ("B1", ⟨"9", some "=SUM(A1:A1)"⟩)]

/-- Pre-edit sheet for the malformed-formula scenario: B1 depends on A1 and
both display 7. -/
def propSheet : Sheet := [("A1", ⟨"7", none⟩), ("B1", ⟨"7", some "=SUM(A1:A1)"⟩)]

/-- Sheet with A1=1 and A2=2. -/
def pairSheet : Sheet := [("A1", ⟨"1", none⟩), ("A2", ⟨"2", none⟩)]

/-- Sheet with A1=1 and B1=2. -/
def sumPairSheet : Sheet := [("A1", ⟨"1", none⟩), ("B1", ⟨"2", none⟩)]

/-- State after edit E1: set A1 to `1` from the fresh component state. -/
def blurState1 : AppState := handleCellBlur initialState "A1" "1"

/-- State after edit E2: set B1 to `=SUM(A1:A1)` (it evaluates to `1`). -/
def blurState2 : AppState := handleCellBlur blurState1 "B1" "=SUM(A1:A1)"

/-- State after edit E3: set A1 to `5`; the recalculation pass writes `5`
into B1's cell object, which is shared with the snapshot stored for E2. -/
def blurState3 : AppState := handleCellBlur blurState2 "A1" "5"

/-! ### Helper lemmas about the map operations and the recalculation fold -/

theorem lookupSheet_cons (p : String × CellData) (t : Sheet) (k : String) :
    lookupSheet (p :: t) k = if p.1 = k then some p.2 else lookupSheet t k := by
  by_cases h : p.1 = k <;> simp [lookupSheet, List.find?, h]

theorem updateValue_cons (p : String × CellData) (t : Sheet) (k v : String) :
    updateValue (p :: t) k v =
      (if p.1 = k then (p.1, (⟨v, p.2.formula⟩ : CellData)) else p) :: updateValue t k v := by
  simp [updateValue]

theorem lookup_updateValue_self (d : Sheet) (k v : String) :
    lookupSheet (updateValue d k v) k =
      (lookupSheet d k).map (fun c => (⟨v, c.formula⟩ : CellData)) := by
  induction d with
  | nil => rfl
  | cons p t ih =>
    rw [updateValue_cons, lookupSheet_cons, lookupSheet_cons]
    by_cases h : p.1 = k
    · simp [h]
    · simp [h, ih]

theorem lookup_updateValue_ne (d : Sheet) (k v k' : String) (h : k' ≠ k) :
    lookupSheet (updateValue d k v) k' = lookupSheet d k' := by
  induction d with
  | nil => rfl
  | cons p t ih =>
    rw [updateValue_cons, lookupSheet_cons, lookupSheet_cons]
    by_cases hp : p.1 = k
    · have hk : ¬ k = k' := fun hx => h hx.symm
      simp [hp, hk, ih]
    · by_cases hq : p.1 = k'
      · simp [hp, hq, h]
      · simp [hp, hq, ih]

theorem keysOf_updateValue (d : Sheet) (k v : String) :
    keysOf (updateValue d k v) = keysOf d := by
  induction d with
  | nil => rfl
  | cons p t ih =>
    rw [updateValue_cons]
    by_cases h : p.1 = k <;> simp [keysOf, h] <;>
      simpa [keysOf] using ih

theorem lookup_reevalKey_ne (d : Sheet) (k k' : String) (h : k' ≠ k) :
    lookupSheet (reevalKey d k) k' = lookupSheet d k' := by
  cases hv : lookupSheet d k with
  | none => simp only [reevalKey, hv]
  | some c =>
    obtain ⟨cv, cf⟩ := c
    cases cf with
    | none => simp only [reevalKey, hv]
    | some f =>
      by_cases hz : f = ""
      · simp only [reevalKey, hv, hz, if_pos]
      · simp only [reevalKey, hv, if_neg hz]
        exact lookup_updateValue_ne d k _ k' h

theorem reevalKey_formula (d : Sheet) (k k' : String) :
    (lookupSheet (reevalKey d k) k').map (fun c => c.formula) =
      (lookupSheet d k').map (fun c => c.formula) := by
  by_cases h : k' = k
  · subst h
    cases hv : lookupSheet d k' with
    | none => simp only [reevalKey, hv]
    | some c =>
      obtain ⟨cv, cf⟩ := c
      cases cf with
      | none => simp only [reevalKey, hv]
      | some f =>
        by_cases hz : f = ""
        · simp only [reevalKey, hv, hz, if_pos]
        · simp only [reevalKey, hv, if_neg hz]
          rw [lookup_updateValue_self, hv]
          rfl
  · rw [lookup_reevalKey_ne d k k' h]

theorem lookup_reevalKey_noformula (d : Sheet) (k k' : String) (c : CellData)
    (hv : lookupSheet d k' = some c) (hf : c.formula = none) :
    lookupSheet (reevalKey d k) k' = some c := by
  by_cases h : k' = k
  · subst h
    obtain ⟨cv, cf⟩ := c
    simp only [CellData.formula] at hf
    subst hf
    simp only [reevalKey, hv]
  · rw [lookup_reevalKey_ne d k k' h, hv]

theorem lookup_foldl_reevalKey_not_mem (ks : List String) (d : Sheet) (k : String)
    (h : k ∉ ks) : lookupSheet (ks.foldl reevalKey d) k = lookupSheet d k := by
  induction ks generalizing d with
  | nil => rfl
  | cons k0 t ih =>
    simp only [List.foldl_cons]
    rw [ih _ (fun hm => h (List.mem_cons_of_mem _ hm)),
      lookup_reevalKey_ne d k0 k (fun he => h (he ▸ List.mem_cons_self _ _))]

theorem foldl_reevalKey_formula (ks : List String) (d : Sheet) (k : String) :
    (lookupSheet (ks.foldl reevalKey d) k).map (fun c => c.formula) =
      (lookupSheet d k).map (fun c => c.formula) := by
  induction ks generalizing d with
  | nil => rfl
  | cons k0 t ih =>
    simp only [List.foldl_cons]
    rw [ih, reevalKey_formula]

theorem foldl_reevalKey_noformula (ks : List String) (d : Sheet) (k : String) (c : CellData)
    (hv : lookupSheet d k = some c) (hf : c.formula = none) :
    lookupSheet (ks.foldl reevalKey d) k = some c := by
  induction ks generalizing d with
  | nil => exact hv
  | cons k0 t ih =>
    exact ih _ (lookup_reevalKey_noformula d k0 k c hv hf)

theorem lookup_mapSet_self (d : Sheet) (k : String) (c : CellData)
    (ha : d.any (fun p => p.1 = k) = true) :
    lookupSheet (d.map (fun p => if p.1 = k then (k, c) else p)) k = some c := by
  induction d with
  | nil => simp at ha
  | cons p t ih =>
    by_cases hp : p.1 = k
    · simp [List.map_cons, hp, lookupSheet_cons]
    · have ht : t.any (fun p => p.1 = k) = true := by
        simpa [List.any_cons, hp] using ha
      simp only [List.map_cons, if_neg hp]
      rw [lookupSheet_cons, if_neg hp]
      exact ih ht

theorem lookup_append_single_self (d : Sheet) (k : String) (c : CellData)
    (ha : d.any (fun p => p.1 = k) = false) :
    lookupSheet (d ++ [(k, c)]) k = some c := by
  induction d with
  | nil => simp [lookupSheet_cons]
  | cons p t ih =>
    have hp : ¬ p.1 = k := by
      intro h; simp [List.any_cons, h] at ha
    have ht : t.any (fun p => p.1 = k) = false := by
      simpa [List.any_cons, hp] using ha
    rw [List.cons_append, lookupSheet_cons, if_neg hp]
    exact ih ht

theorem lookup_setCell_self (d : Sheet) (k : String) (c : CellData) :
    lookupSheet (setCell d k c) k = some c := by
  unfold setCell
  by_cases ha : d.any (fun p => p.1 = k)
  · rw [if_pos ha]; exact lookup_mapSet_self d k c ha
  · rw [if_neg ha]
    exact lookup_append_single_self d k c (Bool.not_eq_true _ ▸ eq_false_of_ne_true ha)

theorem lookup_mapSet_ne (d : Sheet) (k : String) (c : CellData) (k' : String)
    (h : k' ≠ k) :
    lookupSheet (d.map (fun p => if p.1 = k then (k, c) else p)) k' = lookupSheet d k' := by
  induction d with
  | nil => rfl
  | cons p t ih =>
    by_cases hp : p.1 = k
    · have hkne : ¬ (k, c).1 = k' := fun hx => h hx.symm
      have hpne : ¬ p.1 = k' := by rw [hp]; exact fun hx => h hx.symm
      simp only [List.map_cons, if_pos hp]
      rw [lookupSheet_cons, lookupSheet_cons, if_neg hkne, if_neg hpne, ih]
    · simp only [List.map_cons, if_neg hp]
      rw [lookupSheet_cons, lookupSheet_cons]
      by_cases hq : p.1 = k'
      · simp [hq]
      · rw [if_neg hq, if_neg hq, ih]

theorem lookup_append_single_ne (d : Sheet) (k : String) (c : CellData) (k' : String)
    (h : k' ≠ k) : lookupSheet (d ++ [(k, c)]) k' = lookupSheet d k' := by
  induction d with
  | nil =>
    rw [List.nil_append, lookupSheet_cons, if_neg (fun hx => h hx.symm)]
  | cons p t ih =>
    rw [List.cons_append, lookupSheet_cons, lookupSheet_cons]
    by_cases hq : p.1 = k'
    · simp [hq]
    · rw [if_neg hq, if_neg hq, ih]

theorem lookup_setCell_ne (d : Sheet) (k : String) (c : CellData) (k' : String)
    (h : k' ≠ k) : lookupSheet (setCell d k c) k' = lookupSheet d k' := by
  unfold setCell
  by_cases ha : d.any (fun p => p.1 = k)
  · rw [if_pos ha]; exact lookup_mapSet_ne d k c k' h
  · rw [if_neg ha]; exact lookup_append_single_ne d k c k' h

theorem mem_keysOf_setCell (d : Sheet) (k : String) (c : CellData) :
    k ∈ keysOf (setCell d k c) := by
  unfold setCell
  by_cases ha : d.any (fun p => p.1 = k)
  · rw [if_pos ha]
    induction d with
    | nil => simp at ha
    | cons p t ih =>
      by_cases hp : p.1 = k
      · simp [keysOf, hp]
      · have ht : t.any (fun p => p.1 = k) = true := by
          simpa [List.any_cons, hp] using ha
        simp only [List.map_cons, if_neg hp, keysOf] at ih ⊢
        exact List.mem_cons_of_mem _ (ih ht)
  · rw [if_neg ha]
    simp [keysOf]

theorem keysOf_mapSet (d : Sheet) (k : String) (c : CellData) :
    keysOf (d.map (fun p => if p.1 = k then (k, c) else p)) = keysOf d := by
  induction d with
  | nil => rfl
  | cons p t ih =>
    by_cases hp : p.1 = k
    · simp only [List.map_cons, if_pos hp, keysOf] at ih ⊢
      rw [ih, hp]
    · simp only [List.map_cons, if_neg hp, keysOf] at ih ⊢
      rw [ih]

theorem nodup_keysOf_setCell (d : Sheet) (k : String) (c : CellData)
    (h : (keysOf d).Nodup) : (keysOf (setCell d k c)).Nodup := by
  unfold setCell
  by_cases ha : d.any (fun p => p.1 = k)
  · rw [if_pos ha, keysOf_mapSet]; exact h
  · rw [if_neg ha]
    have hk : k ∉ keysOf d := by
      intro hm
      simp only [keysOf, List.mem_map] at hm
      obtain ⟨p, hp, he⟩ := hm
      simp only [List.any_eq_true, not_exists, not_and] at ha
      exact absurd (by simp [he] : decide (p.1 = k) = true) (by simpa using ha p hp)
    simp only [keysOf, List.map_append, List.map_cons, List.map_nil]
    refine List.Nodup.append h (List.nodup_singleton k) ?_
    intro a ham hak
    rw [List.mem_singleton] at hak
    subst hak
    exact hk ham

theorem strStartsWith_eq_ne_empty (v : String) (h : strStartsWith v "=" = true) :
    v ≠ "" := by
  intro he
  subst he
  simp [strStartsWith, listStartsWith] at h

theorem foldl_reevalKey_const_zero (ks : List String) (d : Sheet) (k : String)
    (cv f : String) (hnd : ks.Nodup) (hin : k ∈ ks)
    (hv : lookupSheet d k = some ⟨cv, some f⟩) (hz : f ≠ "")
    (h0 : ∀ d', evaluateFormula (strDrop f 1) d' = "0") :
    lookupSheet (ks.foldl reevalKey d) k = some ⟨"0", some f⟩ := by
  induction ks generalizing d cv with
  | nil => cases hin
  | cons k0 t ih =>
    simp only [List.foldl_cons]
    by_cases he : k = k0
    · subst he
      have hstep : lookupSheet (reevalKey d k) k = some ⟨"0", some f⟩ := by
        simp only [reevalKey, hv, if_neg hz]
        rw [lookup_updateValue_self, hv, h0]
        rfl
      have hnotin : k ∉ t := by
        rw [List.nodup_cons] at hnd
        exact hnd.1
      rw [lookup_foldl_reevalKey_not_mem t _ k hnotin, hstep]
    · have hv' : lookupSheet (reevalKey d k0) k = some ⟨cv, some f⟩ := by
        rw [lookup_reevalKey_ne d k0 k he, hv]
      have hnd' : t.Nodup := (List.nodup_cons.mp hnd).2
      have hin' : k ∈ t := by
        cases List.mem_cons.mp hin with
        | inl hx => exact absurd hx he
        | inr hx => exact hx
      exact ih _ _ hnd' hin' hv'

theorem evaluateFormula_no_match (f : String)
    (h1 : sumMatch (jsToUpper f) = none) (h2 : avgMatch (jsToUpper f) = none)
    (h3 : countMatch (jsToUpper f) = none) (h4 : minMatch (jsToUpper f) = none)
    (h5 : maxMatch (jsToUpper f) = none) (h6 : ifMatch (jsToUpper f) = none) :
    ∀ d, evaluateFormula f d = "0" := by
  intro d
  simp only [evaluateFormula, h1, h2, h3, h4, h5, h6]


/-! ### Claim theorems -/

/-- Claim C1, counterexample.  On `chainSheet` (A1 reads B1, B1 reads C1,
keys ordered A1, B1, C1) the committed edit C1:=5 leaves A1 at its stale
value "1" while its formula `SUM(B1:B1)` evaluates to "5" over the final
post-pass map: a formula cell's stored value does not equal its formula
evaluated over the final values of its precedents, refuting topological
recomputation order. -/
theorem recalc_not_topological_cex :
    ¬ ((lookupSheet (handleCellBlurData chainSheet "C1" "5") "A1").map (fun c => c.value) =
       some (evaluateFormula "SUM(B1:B1)" (handleCellBlurData chainSheet "C1" "5"))) := by
  decide

/-- Claim C1, amended.  The recalculation pass triggered by a committed edit
is a single sweep in map key order with no dependency analysis: every cell
other than the edited one keeps its formula, a cell with no formula is not
touched at all, and a formula cell is rewritten to some value (computed from
whatever its precedents held when it was visited, which is stale when a
precedent formula appears later in key order — see the counterexample). -/
theorem recalc_single_pass_key_order (d : Sheet) (cell v k : String) (c : CellData)
    (hk : k ≠ cell) (hv : lookupSheet d k = some c) :
    ∃ w, lookupSheet (handleCellBlurData d cell v) k = some ⟨w, c.formula⟩ ∧
      (c.formula = none → w = c.value) := by
  simp only [handleCellBlurData]
  set d1 := (if strStartsWith v "=" = true then
      setCell d cell ⟨evaluateFormula (strDrop v 1) d, some v⟩
    else setCell d cell ⟨v, none⟩) with hd1
  have hl : lookupSheet d1 k = some c := by
    rw [hd1]
    by_cases hs : strStartsWith v "=" = true
    · rw [if_pos hs, lookup_setCell_ne _ _ _ _ hk, hv]
    · rw [if_neg hs, lookup_setCell_ne _ _ _ _ hk, hv]
  have hform := foldl_reevalKey_formula (keysOf d1) d1 k
  rw [hl] at hform
  unfold recalcAll
  cases hres : lookupSheet ((keysOf d1).foldl reevalKey d1) k with
  | none => rw [hres] at hform; simp at hform
  | some c' =>
    rw [hres] at hform
    simp only [Option.map_some'] at hform
    obtain ⟨cv', cf'⟩ := c'
    simp only at hform
    injection hform with hform
    refine ⟨cv', ?_, ?_⟩
    · rw [hform]
    · intro hnone
      have hc := foldl_reevalKey_noformula (keysOf d1) d1 k c hl hnone
      rw [hc] at hres
      injection hres with hres
      rw [hres]

/-- Claim C1, witness for `recalc_single_pass_key_order` at `chainSheet`,
editing C1 to 5 and observing B1. -/
theorem recalc_single_pass_key_order_witness :
    (("B1" : String) ≠ "C1") ∧
    lookupSheet chainSheet "B1" = some ⟨"1", some "=SUM(C1:C1)"⟩ ∧
    (∃ w, lookupSheet (handleCellBlurData chainSheet "C1" "5") "B1" =
        some ⟨w, some "=SUM(C1:C1)"⟩ ∧
      ((some "=SUM(C1:C1)" : Option String) = none → w = "1")) :=
  ⟨by decide, by decide,
    recalc_single_pass_key_order chainSheet "C1" "5" "B1" ⟨"1", some "=SUM(C1:C1)"⟩
      (by decide) (by decide)⟩

/-- Claim C2, counterexample.  Editing A1 of `cycleSheet` to `=SUM(B1:B1)`
while B1 holds `=SUM(A1:A1)` closes a dependency cycle, yet the resulting
map differs from the pre-edit map: the formula is installed and A1's value
changes from "7" to "9", so the edit is committed, not rejected, nothing is
rolled back, and no `CircularReference` error exists anywhere in the code's
data model. -/
theorem cycle_edit_commits_cex :
    handleCellBlurData cycleSheet "A1" "=SUM(B1:B1)" ≠ cycleSheet := by decide

/-- Claim C2, amended.  The engine performs no cycle detection: every
committed formula edit installs its formula text on the edited cell
unconditionally (cycle or not), and the single key-order pass assigns the
cycle's members values read from each other's current entries; no error is
reported and no rollback occurs. -/
theorem edit_always_commits (d : Sheet) (cell v : String)
    (hs : strStartsWith v "=" = true) :
    (lookupSheet (handleCellBlurData d cell v) cell).map (fun c => c.formula) =
      some (some v) := by
  simp only [handleCellBlurData, hs, if_true]
  unfold recalcAll
  rw [foldl_reevalKey_formula, lookup_setCell_self]
  rfl

/-- Claim C2, witness for `edit_always_commits` on the cyclic edit itself. -/
theorem edit_always_commits_witness :
    strStartsWith "=SUM(B1:B1)" "=" = true ∧
    (lookupSheet (handleCellBlurData cycleSheet "A1" "=SUM(B1:B1)") "A1").map
        (fun c => c.formula) = some (some "=SUM(B1:B1)") :=
  ⟨by decide, edit_always_commits cycleSheet "A1" "=SUM(B1:B1)" (by decide)⟩

/-- Claim C3 (code bug).  COUNT counts every operand cell, not only the
numeric ones: on A1=1, A2=x, A3=3 the code returns "3" where the claim and
the evident intent of the source's `values.filter(val => !isNaN(val))`
expect 2 — `parseValues` has already collapsed every non-numeric value to 0
with `parseFloat(val) || 0`, so the `isNaN` filter can never drop anything. -/
theorem count_counts_all_cells :
    evaluateFormula "COUNT(A1:A3)" rangeSheet = "3" := by decide

/-- Claim C4, counterexample.  `IF(A1>5,"big","small")` with A1=10 yields
"BIG", not "big": `evaluateFormula` uppercases the entire formula text
before matching, so the branch literals are uppercased too. -/
theorem if_lowercase_branch_cex :
    evaluateFormula "IF(A1>5,\"big\",\"small\")" ifSheetBig = "BIG" ∧
    evaluateFormula "IF(A1>5,\"big\",\"small\")" ifSheetBig ≠ "big" := by decide

/-- Claim C4, amended.  The IF condition is evaluated by coercing both
operands to numbers (`parseFloat(...) || 0`) and applying the comparison
operator, and the result is the string value of the selected branch taken
from the uppercased formula text: for every sheet the formula
`IF(A1>5,"big","small")` returns "BIG" exactly when A1's numeric value
exceeds 5 and "SMALL" otherwise; with A1=10 it yields "BIG", with A1=3 it
yields "SMALL". -/
theorem if_selection_uppercase :
    (∀ d : Sheet, evaluateFormula "IF(A1>5,\"big\",\"small\")" d =
      if jnLt (jnOfInt 5) (jsOr0 (parseFloat (getCellStr d "A1"))) then "BIG" else "SMALL") ∧
    evaluateFormula "IF(A1>5,\"big\",\"small\")" ifSheetBig = "BIG" ∧
    evaluateFormula "IF(A1>5,\"big\",\"small\")" ifSheetSmall = "SMALL" := by
  refine ⟨fun d => ?_, by decide, by decide⟩
  rfl

/-- Claim C5 (code bug).  After committing E1 (A1:=1), E2 (B1:=SUM(A1:A1),
showing "1") and E3 (A1:=5), undoing twice and redoing once is supposed to
restore the snapshot after E2; instead the restored view shows B1="5",
because E3's recalculation pass wrote through the cell object that the
stored snapshot shares with the live map (`addToHistory` pushes only a
shallow copy of the cell map). -/
theorem undo_redo_returns_mutated_snapshot :
    viewValue blurState2 "B1" = some "1" ∧
    viewValue (redo (undo (undo blurState3))) "B1" = some "5" := by decide

/-- Claim C6, counterexample.  Editing A1 of `propSheet` to the malformed
formula `=FOO(1)` does not leave the other cells unchanged: B1, which reads
A1, is re-evaluated against A1's new value "0" and drops from "7" to "0" in
the same pass — there is no `errorState` and a malformed formula does
propagate (as the value 0). -/
theorem malformed_propagates_cex :
    ¬ ((lookupSheet (handleCellBlurData propSheet "A1" "=FOO(1)") "B1").map (fun c => c.value) =
       (lookupSheet propSheet "B1").map (fun c => c.value)) := by decide

/-- Claim C6, amended.  A committed edit whose formula text matches none of
the six recognized patterns stores value "0" on the edited cell (keeping the
formula text); no error state exists in the data model, and the "0"
participates in the same recalculation pass like any other value, so it can
propagate to dependents. -/
theorem malformed_formula_stores_zero (d : Sheet) (cell v : String)
    (hnd : (keysOf d).Nodup) (hs : strStartsWith v "=" = true)
    (h1 : sumMatch (jsToUpper (strDrop v 1)) = none)
    (h2 : avgMatch (jsToUpper (strDrop v 1)) = none)
    (h3 : countMatch (jsToUpper (strDrop v 1)) = none)
    (h4 : minMatch (jsToUpper (strDrop v 1)) = none)
    (h5 : maxMatch (jsToUpper (strDrop v 1)) = none)
    (h6 : ifMatch (jsToUpper (strDrop v 1)) = none) :
    lookupSheet (handleCellBlurData d cell v) cell = some ⟨"0", some v⟩ := by
  have h0 := evaluateFormula_no_match (strDrop v 1) h1 h2 h3 h4 h5 h6
  simp only [handleCellBlurData, hs, if_true]
  unfold recalcAll
  have hv1 : lookupSheet (setCell d cell ⟨evaluateFormula (strDrop v 1) d, some v⟩) cell =
      some ⟨"0", some v⟩ := by
    rw [lookup_setCell_self, h0 d]
  exact foldl_reevalKey_const_zero _ _ cell "0" v
    (nodup_keysOf_setCell d cell _ hnd) (mem_keysOf_setCell d cell _) hv1
    (strStartsWith_eq_ne_empty v hs) h0

/-- Claim C6, witness for `malformed_formula_stores_zero` on the edit
A1:=`=FOO(1)` over `propSheet`. -/
theorem malformed_formula_stores_zero_witness :
    (keysOf propSheet).Nodup ∧ strStartsWith "=FOO(1)" "=" = true ∧
    lookupSheet (handleCellBlurData propSheet "A1" "=FOO(1)") "A1" =
      some ⟨"0", some "=FOO(1)"⟩ :=
  ⟨by decide, by decide,
    malformed_formula_stores_zero propSheet "A1" "=FOO(1)" (by decide) (by decide)
      (by decide) (by decide) (by decide) (by decide) (by decide) (by decide)⟩

/-- Claim C7, counterexample.  Range resolution is not normalized: with
A1=1 and A2=2, `parseRange "A2:A1"` returns the empty list while
`parseRange "A1:A2"` returns both cells, so iteration does not proceed over
the bounding rectangle regardless of endpoint order (and no
`MalformedReference` error exists for bad endpoints either). -/
theorem parseRange_order_cex :
    parseRange "A2:A1" pairSheet ≠ parseRange "A1:A2" pairSheet := by decide

/-- Claim C7, amended.  `parseRange` splits on `:`, takes the first
character of each endpoint as the column and `parseInt` of the rest as the
row, and iterates row-major from the first endpoint to the second only when
the first is the top-left corner; a reversed range or an endpoint whose row
fails to parse yields the empty list (no error): for every sheet,
`B2:C3` enumerates B2, C2, B3, C3 in row-major order, while `C3:B2` and the
endpoint-less `A:B2` produce `[]`. -/
theorem parseRange_no_normalization :
    (∀ d : Sheet, parseRange "B2:C3" d =
      [getCellStr d "B2", getCellStr d "C2", getCellStr d "B3", getCellStr d "C3"]) ∧
    (∀ d : Sheet, parseRange "C3:B2" d = []) ∧
    (∀ d : Sheet, parseRange "A:B2" d = []) := by
  refine ⟨fun d => ?_, fun d => ?_, fun d => ?_⟩ <;> rfl

/-- Claim C8, counterexample.  With A1=1 and B1=2 the formula `SUM(A1,B1)`
returns "0", not "3": the argument list is never split on commas, the whole
token `A1,B1` fails the cell-reference pattern and coerces to 0, so SUM does
not range over "all operands". -/
theorem sum_multi_operand_cex :
    evaluateFormula "SUM(A1,B1)" sumPairSheet = "0" ∧
    evaluateFormula "SUM(A1,B1)" sumPairSheet ≠ "3" := by decide

/-- Claim C8, amended.  SUM takes a single operand: over a range it sums
every cell of the rectangle with non-numeric values coercing to 0 (for every
sheet, `SUM(A1:A3)` is the coerced sum of A1, A2, A3; on A1=1, A2=x, A3=3 it
equals "4"), an empty (reversed) range sums to "0", and a comma-separated
argument list is treated as one unsplittable token that coerces to 0. -/
theorem sum_single_operand_semantics :
    (∀ d : Sheet, evaluateFormula "SUM(A1:A3)" d =
      jnToString (listSum [jsOr0 (parseFloat (getCellStr d "A1")),
        jsOr0 (parseFloat (getCellStr d "A2")), jsOr0 (parseFloat (getCellStr d "A3"))])) ∧
    (∀ d : Sheet, evaluateFormula "SUM(A3:A1)" d = "0") ∧
    (∀ d : Sheet, evaluateFormula "SUM(A1,B1)" d = "0") ∧
    evaluateFormula "SUM(A1:A3)" rangeSheet = "4" := by
  refine ⟨fun d => rfl, fun d => ?_, fun d => ?_, by decide⟩
  · show jnToString (listSum ((parseRange "A3:A1" d).map (fun v => jsOr0 (parseFloat v)))) = "0"
    rw [show parseRange "A3:A1" d = [] from rfl]
    decide
  · show jnToString (listSum [jsOr0 (parseFloat (evaluateValue "A1,B1" d))]) = "0"
    rw [show evaluateValue "A1,B1" d = "A1,B1" from rfl]
    decide

/-- Claim C9 (code bug).  MIN does not restrict itself to the numeric-valid
subset: with A1=5 and B1=x, `MIN(A1:B1)` returns "0" (the non-numeric cell
was already coerced to 0 by `parseValues`, and the `!isNaN` filter that was
meant to exclude it can never drop anything), where the claim expects the
minimum of the numeric subset, 5.  The claim's own example `MIN(A1:A1)` on
an empty cell does return "0", but through the coerced 0, not through the
empty-subset branch. -/
theorem min_zero_fills_nonnumeric :
    evaluateFormula "MIN(A1:B1)" minSheet = "0" ∧
    evaluateFormula "MIN(A1:A1)" ([] : Sheet) = "0" := by decide

/-- Claim C10 (confirmed).  Formula evaluation is total — the model is a
structurally terminating function faithful to the source, which has no
throwing operation — and any formula text that matches none of the six
recognized function patterns (applied, as in the source, to the uppercased
text) evaluates to the default string "0". -/
theorem evaluateFormula_total_default (f : String) (d : Sheet)
    (h1 : sumMatch (jsToUpper f) = none) (h2 : avgMatch (jsToUpper f) = none)
    (h3 : countMatch (jsToUpper f) = none) (h4 : minMatch (jsToUpper f) = none)
    (h5 : maxMatch (jsToUpper f) = none) (h6 : ifMatch (jsToUpper f) = none) :
    evaluateFormula f d = "0" :=
  evaluateFormula_no_match f h1 h2 h3 h4 h5 h6 d

/-- Claim C10, witness for `evaluateFormula_total_default` at the
unrecognized formula `FOO(1)` on the empty sheet. -/
theorem evaluateFormula_total_default_witness :
    sumMatch (jsToUpper "FOO(1)") = none ∧ avgMatch (jsToUpper "FOO(1)") = none ∧
    countMatch (jsToUpper "FOO(1)") = none ∧ minMatch (jsToUpper "FOO(1)") = none ∧
    maxMatch (jsToUpper "FOO(1)") = none ∧ ifMatch (jsToUpper "FOO(1)") = none ∧
    evaluateFormula "FOO(1)" ([] : Sheet) = "0" :=
  ⟨by decide, by decide, by decide, by decide, by decide, by decide,
    evaluateFormula_total_default "FOO(1)" [] (by decide) (by decide) (by decide)
      (by decide) (by decide) (by decide)⟩
